import Mathlib

/-!
Shallow embedding of `src/src/core/wave_emotion_analyzer.py`: the wave-based
emotional drift analyzer.  Machine floats are modelled as real numbers; the
numpy/scipy primitives the module calls (`np.mean`, `np.std`, `np.polyfit`
degree-1 slope, `scipy.signal.detrend`, `scipy.fft.fft`, `np.fft.fftfreq`,
`np.argmax`, `np.clip`, `scipy.signal.hilbert`, `np.angle`) are embedded as
their mathematical definitions over `ℝ` and `ℂ`.  Python list slices are
embedded with Python's semantics, including `l[-k:]` being the whole list
when `k = 0`.  `datetime` timestamps are stored and serialized by the module
but never entered into any computation, so a timestamp is represented by its
ISO-8601 string form.
-/

open Classical

noncomputable section

/-- Timestamps are opaque to the analyzer (stored, serialized, never computed
with), represented by their ISO-8601 string form. -/
abbrev Timestamp := String

/-- The dataclass `EmotionalWavePoint`: a single sample of the emotional wave. -/
structure EmotionalWavePoint where
  timestamp : Timestamp
  valence : ℝ
  arousal : ℝ
  dominance : ℝ
  intensity : ℝ

/-- The four emotional dimensions the analyzer iterates over, in the source's
order `["valence", "arousal", "dominance", "intensity"]`. -/
inductive Dimension where
  | valence
  | arousal
  | dominance
  | intensity
deriving DecidableEq

/-- The list `["valence", "arousal", "dominance", "intensity"]` in source order. -/
def dimensions : List Dimension :=
  [Dimension.valence, Dimension.arousal, Dimension.dominance, Dimension.intensity]

/-- Python's `getattr(point, dimension)` for the four dimension names. -/
def EmotionalWavePoint.getattr (p : EmotionalWavePoint) : Dimension → ℝ
  | Dimension.valence => p.valence
  | Dimension.arousal => p.arousal
  | Dimension.dominance => p.dominance
  | Dimension.intensity => p.intensity

/-- Python slice `l[-k:]` for a nonnegative `k`: the last `k` elements when
`1 ≤ k ≤ len`, the whole list when `k = 0` (Python's `-0` is `0`) or `k ≥ len`. -/
def sliceLast {α : Type} (k : ℕ) (l : List α) : List α :=
  if k = 0 then l else l.drop (l.length - k)

/-- Python slice `l[a:b]` for nonnegative bounds. -/
def pySlice {α : Type} (a b : ℕ) (l : List α) : List α :=
  (l.take b).drop a

/-- `np.mean` of a list of reals (`0/0 = 0` stands in for numpy's NaN on an
empty list; the module only takes means of nonempty lists). -/
def npMean (l : List ℝ) : ℝ := l.sum / l.length

/-- `np.std`: population standard deviation (ddof = 0). -/
def npStd (l : List ℝ) : ℝ :=
  Real.sqrt (npMean (l.map (fun x => (x - npMean l) ^ 2)))

/-- `np.clip(x, lo, hi)`. -/
def npClip (x lo hi : ℝ) : ℝ := min (max x lo) hi

/-- The slope returned by `np.polyfit(range(n), l, 1)[0]`: the ordinary
least-squares line through the points `(i, l[i])`, `i = 0, …, n-1`. -/
def polyfitSlope (l : List ℝ) : ℝ :=
  let n : ℕ := l.length
  let sx : ℝ := ((List.range n).map (fun (i : ℕ) => (i : ℝ))).sum
  let sy : ℝ := l.sum
  let sxy : ℝ := ((List.range n).map (fun (i : ℕ) => (i : ℝ) * l.getD i 0)).sum
  let sxx : ℝ := ((List.range n).map (fun (i : ℕ) => (i : ℝ) ^ 2)).sum
  ((n : ℝ) * sxy - sx * sy) / ((n : ℝ) * sxx - sx ^ 2)

/-- `scipy.signal.detrend(l)` with the default linear type: subtract the
least-squares line fit pointwise (the fitted values, hence the residuals, do
not depend on scipy's internal rescaling of the abscissa). -/
def detrend (l : List ℝ) : List ℝ :=
  let slope := polyfitSlope l
  let intercept := npMean l - slope * npMean ((List.range l.length).map (fun (i : ℕ) => (i : ℝ)))
  (List.range l.length).map (fun (i : ℕ) => l.getD i 0 - (slope * (i : ℝ) + intercept))

/-- `scipy.fft.fft` of a real sequence: the discrete Fourier transform
`X[k] = Σ_j x[j]·exp(-2πi·jk/n)`. -/
def fftC (l : List ℝ) : List ℂ :=
  let n := l.length
  (List.range n).map (fun (k : ℕ) =>
    ((List.range n).map (fun (j : ℕ) =>
      ((l.getD j 0 : ℝ) : ℂ) *
        Complex.exp (-(2 * (Real.pi : ℂ) * Complex.I * (j : ℂ) * (k : ℂ)) / (n : ℂ)))).sum)

/-- Inverse discrete Fourier transform `x[k] = (1/n)·Σ_j X[j]·exp(2πi·jk/n)`. -/
def ifftC (l : List ℂ) : List ℂ :=
  let n := l.length
  (List.range n).map (fun (k : ℕ) =>
    (((List.range n).map (fun (j : ℕ) =>
      l.getD j 0 *
        Complex.exp ((2 * (Real.pi : ℂ) * Complex.I * (j : ℂ) * (k : ℂ)) / (n : ℂ)))).sum) / (n : ℂ))

/-- `np.fft.fftfreq(n)` with unit sample spacing:
`[0, 1, …, (n-1)//2, -(n//2), …, -1] / n`. -/
def fftfreq (n : ℕ) : List ℝ :=
  (List.range n).map (fun (k : ℕ) =>
    if k ≤ (n - 1) / 2 then (k : ℝ) / (n : ℝ) else ((k : ℝ) - (n : ℝ)) / (n : ℝ))

/-- `np.argmax`: the index of the first occurrence of the largest value
(the module only applies it to nonempty arrays). -/
def argmax (l : List ℝ) : ℕ :=
  match l with
  | [] => 0
  | x :: xs =>
    (xs.foldl
      (fun s v => if s.2.2 < v then (s.1 + 1, s.1, v) else (s.1 + 1, s.2.1, s.2.2))
      ((1 : ℕ), (0 : ℕ), x)).2.1

/-- `scipy.signal.hilbert`: the analytic signal, computed by doubling the
positive-frequency half of the spectrum (`h[0] = 1`; `h[n/2] = 1` for even
`n`; `h[k] = 2` for `0 < k < n/2`; `h[k] = 0` otherwise) and inverting. -/
def hilbert (l : List ℝ) : List ℂ :=
  let n := l.length
  let f := fftC l
  ifftC (f.mapIdx (fun k z =>
    (if k = 0 then (1 : ℂ) else if 2 * k < n then 2 else if 2 * k = n then 1 else 0) * z))

/-- The dict returned by `extract_wave_features`. -/
structure WaveFeatures where
  amplitude : ℝ
  frequency : ℝ
  phase : ℝ

/-- The dict returned by `_predict_next_state`: one prediction per dimension. -/
structure PredictedState where
  valence : ℝ
  arousal : ℝ
  dominance : ℝ
  intensity : ℝ

/-- Dict lookup `predictions[dimension]`. -/
def PredictedState.getattr (s : PredictedState) : Dimension → ℝ
  | Dimension.valence => s.valence
  | Dimension.arousal => s.arousal
  | Dimension.dominance => s.dominance
  | Dimension.intensity => s.intensity

/-- The dataclass `WaveAnalysisResult`. -/
structure WaveAnalysisResult where
  drift_score : ℝ
  dominant_frequency : ℝ
  amplitude_change : ℝ
  phase_shift : ℝ
  trend_direction : String
  stability_index : ℝ
  emotional_volatility : ℝ
  predicted_next_state : PredictedState

/-- The analyzer's state: `window_size` (constructor parameter, default 10)
and the owned history list. -/
structure WaveBasedEmotionAnalyzer where
  window_size : ℕ
  emotional_history : List EmotionalWavePoint

/-- `add_emotional_point`: append, then truncate to the last
`window_size * 2` elements whenever the length exceeds that cap. -/
def WaveBasedEmotionAnalyzer.add_emotional_point
    (a : WaveBasedEmotionAnalyzer) (p : EmotionalWavePoint) : WaveBasedEmotionAnalyzer :=
  let h := a.emotional_history ++ [p]
  if h.length > a.window_size * 2 then
    { a with emotional_history := sliceLast (a.window_size * 2) h }
  else
    { a with emotional_history := h }

/-- The dimension series `[getattr(point, dimension) for point in
self.emotional_history[-self.window_size:]]` used by feature extraction. -/
def WaveBasedEmotionAnalyzer.windowValues
    (a : WaveBasedEmotionAnalyzer) (d : Dimension) : List ℝ :=
  (sliceLast a.window_size a.emotional_history).map (fun p => p.getattr d)

/-- `extract_wave_features(dimension)`: amplitude (population std of the
window), dominant frequency (largest-magnitude positive-frequency FFT bin of
the detrended window), and phase (angle of the last sample of the analytic
signal).  The `try`/`except` around the Hilbert transform is omitted: over
the reals the computation is total. -/
def WaveBasedEmotionAnalyzer.extract_wave_features
    (a : WaveBasedEmotionAnalyzer) (d : Dimension) : WaveFeatures :=
  if a.emotional_history.length < 3 then ⟨0, 0, 0⟩
  else
    let values := a.windowValues d
    if values.length < 3 then ⟨0, 0, 0⟩
    else
      let amplitude := npStd values
      let detrended := detrend values
      let frequency :=
        if detrended.length > 2 then
          let fft_vals := fftC detrended
          let freqs := fftfreq detrended.length
          let positive_freqs := pySlice 1 (fft_vals.length / 2) fft_vals
          if positive_freqs.length > 0 then
            let dominant_freq_idx := argmax (positive_freqs.map (fun z => Complex.abs z)) + 1
            |freqs.getD dominant_freq_idx 0|
          else (0 : ℝ)
        else (0 : ℝ)
      let phase :=
        if detrended.length > 2 then
          Complex.arg ((hilbert detrended).getD (detrended.length - 1) 0)
        else (0 : ℝ)
      ⟨amplitude, frequency, phase⟩

/-- `_calculate_drift_score`: weighted combination of the mean frequency,
mean amplitude and mean absolute phase across the four dimensions' features
(each term capped at 1). -/
def WaveBasedEmotionAnalyzer.calculate_drift_score
    (analyses : Dimension → WaveFeatures) : ℝ :=
  let avg_frequency := npMean (dimensions.map (fun d => (analyses d).frequency))
  let avg_amplitude := npMean (dimensions.map (fun d => (analyses d).amplitude))
  let avg_phase := npMean (dimensions.map (fun d => |(analyses d).phase|))
  let freq_score := min (avg_frequency * 10) 1
  let amp_score := min (avg_amplitude * 2) 1
  let phase_score := min (avg_phase / Real.pi) 1
  0.4 * freq_score + 0.4 * amp_score + 0.2 * phase_score

/-- `_calculate_amplitude_change`: difference of the mean intensity of the
second and first halves of the entire history, 0 below 6 samples. -/
def WaveBasedEmotionAnalyzer.calculate_amplitude_change
    (a : WaveBasedEmotionAnalyzer) : ℝ :=
  if a.emotional_history.length < 6 then 0
  else
    let mid_point := a.emotional_history.length / 2
    let first_half := a.emotional_history.take mid_point
    let second_half := a.emotional_history.drop mid_point
    npMean (second_half.map (fun p => p.intensity)) -
      npMean (first_half.map (fun p => p.intensity))

/-- `_calculate_phase_shift`: population standard deviation of the four
dimensions' phases. -/
def WaveBasedEmotionAnalyzer.calculate_phase_shift
    (analyses : Dimension → WaveFeatures) : ℝ :=
  npStd (dimensions.map (fun d => (analyses d).phase))

/-- `_determine_trend_direction`: classify the OLS slope of the last three
valence values against the thresholds `0.1` and `-0.1`. -/
def WaveBasedEmotionAnalyzer.determine_trend_direction
    (a : WaveBasedEmotionAnalyzer) : String :=
  if a.emotional_history.length < 3 then "stable"
  else
    let recent_valence := (sliceLast 3 a.emotional_history).map (fun p => p.valence)
    let valence_trend := polyfitSlope recent_valence
    if valence_trend > 0.1 then "improving"
    else if valence_trend < -0.1 then "declining"
    else "stable"

/-- `_calculate_stability_index`: one over one plus the mean coefficient of
variation of the four dimensions' windows. -/
def WaveBasedEmotionAnalyzer.calculate_stability_index
    (a : WaveBasedEmotionAnalyzer) : ℝ :=
  if a.emotional_history.length < 2 then 1
  else
    let dimensions_cv := dimensions.filterMap (fun d =>
      let values := a.windowValues d
      if values.length > 1 then some (npStd values / (|npMean values| + 0.001)) else none)
    if dimensions_cv.isEmpty then 1
    else 1 / (1 + npMean dimensions_cv)

/-- `_calculate_emotional_volatility`: population standard deviation of the
windowed intensities, 0 below 3 samples. -/
def WaveBasedEmotionAnalyzer.calculate_emotional_volatility
    (a : WaveBasedEmotionAnalyzer) : ℝ :=
  if a.emotional_history.length < 3 then 0
  else
    let intensities := (sliceLast a.window_size a.emotional_history).map (fun p => p.intensity)
    if intensities.length < 3 then 0
    else npStd intensities

/-- One dimension's entry of `_predict_next_state`: sine-wave extrapolation
when the extracted frequency is positive, last-delta extrapolation otherwise,
clamped to the dimension's valid range. -/
def WaveBasedEmotionAnalyzer.predictDimension
    (a : WaveBasedEmotionAnalyzer) (analyses : Dimension → WaveFeatures)
    (d : Dimension) : ℝ :=
  if a.emotional_history.length < 3 then 0
  else
    let recent_values := (sliceLast 3 a.emotional_history).map (fun p => p.getattr d)
    let analysis := analyses d
    if analysis.frequency > 0 then
      let t_next : ℝ := (recent_values.length : ℝ)
      let wave := analysis.amplitude *
        Real.sin (2 * Real.pi * analysis.frequency * t_next + analysis.phase)
      let trend := polyfitSlope recent_values
      let predicted_value := wave + (recent_values.getD (recent_values.length - 1) 0 + trend)
      if d = Dimension.valence ∨ d = Dimension.dominance then npClip predicted_value (-1) 1
      else npClip predicted_value 0 1
    else
      if recent_values.length ≥ 2 then
        let trend := recent_values.getD (recent_values.length - 1) 0 -
          recent_values.getD (recent_values.length - 2) 0
        let predicted_value := recent_values.getD (recent_values.length - 1) 0 + trend
        if d = Dimension.valence ∨ d = Dimension.dominance then npClip predicted_value (-1) 1
        else npClip predicted_value 0 1
      else recent_values.getD (recent_values.length - 1) 0

/-- `_predict_next_state`: the per-dimension predictions dict. -/
def WaveBasedEmotionAnalyzer.predict_next_state
    (a : WaveBasedEmotionAnalyzer) (analyses : Dimension → WaveFeatures) : PredictedState :=
  { valence := a.predictDimension analyses Dimension.valence
    arousal := a.predictDimension analyses Dimension.arousal
    dominance := a.predictDimension analyses Dimension.dominance
    intensity := a.predictDimension analyses Dimension.intensity }

/-- `detect_emotional_drift`: the neutral result below 3 samples, otherwise
the scores assembled from the per-dimension wave features. -/
def WaveBasedEmotionAnalyzer.detect_emotional_drift
    (a : WaveBasedEmotionAnalyzer) : WaveAnalysisResult :=
  if a.emotional_history.length < 3 then
    { drift_score := 0
      dominant_frequency := 0
      amplitude_change := 0
      phase_shift := 0
      trend_direction := "stable"
      stability_index := 1
      emotional_volatility := 0
      predicted_next_state := { valence := 0, arousal := 0, dominance := 0, intensity := 0 } }
  else
    let analyses : Dimension → WaveFeatures := fun d => a.extract_wave_features d
    { drift_score := WaveBasedEmotionAnalyzer.calculate_drift_score analyses
      dominant_frequency := npMean (dimensions.map (fun d => (analyses d).frequency))
      amplitude_change := a.calculate_amplitude_change
      phase_shift := WaveBasedEmotionAnalyzer.calculate_phase_shift analyses
      trend_direction := a.determine_trend_direction
      stability_index := a.calculate_stability_index
      emotional_volatility := a.calculate_emotional_volatility
      predicted_next_state := a.predict_next_state analyses }

/-- JSON values as written and read by `json.dump` / `json.load`.  Python's
JSON round-trips floats exactly (shortest round-trip `repr`), so a number is
carried as the real it denotes. -/
inductive Json where
  | null
  | jbool (b : Bool)
  | num (x : ℝ)
  | jstr (s : String)
  | arr (items : List Json)
  | obj (fields : List (String × Json))

/-- Python dict subscription `data[key]`: the value, or a `KeyError`
(`TypeError` when the subscripted value is not a dict of strings). -/
def Json.lookup (j : Json) (key : String) : Except String Json :=
  match j with
  | Json.obj fields =>
    match fields.lookup key with
    | some v => Except.ok v
    | none => Except.error ("KeyError: " ++ key)
  | _ => Except.error "TypeError: value is not subscriptable by string"

/-- Reading a field that the persistence contract declares a float.  The
dataclass itself does not validate, but every non-number here would make the
analyzer's arithmetic meaningless, and the spec's serialization contract
fixes the four fields as floats. -/
def Json.asNum : Json → Except String ℝ
  | Json.num x => Except.ok x
  | _ => Except.error "TypeError: field is not a number"

/-- `datetime.fromisoformat(data["timestamp"])` demands a string (raising
`TypeError` otherwise); with timestamps represented by their ISO string, a
string parses to itself. -/
def Json.asTimestamp : Json → Except String Timestamp
  | Json.jstr s => Except.ok s
  | _ => Except.error "TypeError: fromisoformat argument must be str"

/-- `EmotionalWavePoint.to_dict`. -/
def EmotionalWavePoint.to_dict (p : EmotionalWavePoint) : Json :=
  Json.obj [("timestamp", Json.jstr p.timestamp), ("valence", Json.num p.valence),
    ("arousal", Json.num p.arousal), ("dominance", Json.num p.dominance),
    ("intensity", Json.num p.intensity)]

/-- `EmotionalWavePoint.from_dict`: field lookups that raise on a missing key
or an ill-typed timestamp. -/
def EmotionalWavePoint.from_dict (j : Json) : Except String EmotionalWavePoint := do
  let ts ← (← j.lookup "timestamp").asTimestamp
  let v ← (← j.lookup "valence").asNum
  let ar ← (← j.lookup "arousal").asNum
  let dom ← (← j.lookup "dominance").asNum
  let inten ← (← j.lookup "intensity").asNum
  Except.ok ⟨ts, v, ar, dom, inten⟩

/-- The bytes of a persisted file: either a well-formed JSON document or
malformed text that `json.load` rejects. -/
inductive FileContent where
  | wellFormed (j : Json)
  | malformed

/-- `json.load`: the parsed document, or a `JSONDecodeError`. -/
def jsonLoad : FileContent → Except String Json
  | FileContent.wellFormed j => Except.ok j
  | FileContent.malformed => Except.error "json.decoder.JSONDecodeError"

/-- The list comprehension `[EmotionalWavePoint.from_dict(point) for point in
data]`.  A JSON array maps `from_dict` over its items; iterating a dict or a
string yields strings, on which `from_dict` raises unless the iteration is
empty; other values are not iterable. -/
def decodeHistory : Json → Except String (List EmotionalWavePoint)
  | Json.arr items => items.mapM EmotionalWavePoint.from_dict
  | Json.obj fields =>
    if fields.isEmpty then Except.ok [] else Except.error "TypeError: string indices"
  | Json.jstr s =>
    if s.isEmpty then Except.ok [] else Except.error "TypeError: string indices"
  | _ => Except.error "TypeError: object is not iterable"

/-- The body of `load_history`'s `try` block after the file is opened:
`json.load` followed by the `from_dict` comprehension. -/
def decodeFile (c : FileContent) : Except String (List EmotionalWavePoint) := do
  let j ← jsonLoad c
  decodeHistory j

/-- `save_history`: the file content written, a JSON array of the points'
dicts. -/
def WaveBasedEmotionAnalyzer.save_history (a : WaveBasedEmotionAnalyzer) : FileContent :=
  FileContent.wellFormed (Json.arr (a.emotional_history.map EmotionalWavePoint.to_dict))

/-- `load_history`: a missing file (`FileNotFoundError`, the only caught
exception) resets the history to empty; a present file is decoded, and any
decoding failure propagates, leaving the history assignment unexecuted. -/
def WaveBasedEmotionAnalyzer.load_history (a : WaveBasedEmotionAnalyzer)
    (file : Option FileContent) : Except String WaveBasedEmotionAnalyzer :=
  match file with
  | none => Except.ok { a with emotional_history := [] }
  | some c =>
    match decodeFile c with
    | Except.ok pts => Except.ok { a with emotional_history := pts }
    | Except.error e => Except.error e

/-- The file system visible to `save_history` and `load_history`. -/
def FileSystem : Type := String → Option FileContent

/-- The analyzer's public operations, as invoked by a caller. -/
inductive Op where
  | addPoint (p : EmotionalWavePoint)
  | detectDrift
  | extractFeatures (d : Dimension)
  | saveHistory (path : String)
  | loadHistory (path : String)

/-- An analyzer together with the file system it persists to. -/
structure SysState where
  analyzer : WaveBasedEmotionAnalyzer
  fs : FileSystem

/-- One operation: `detect_emotional_drift` and `extract_wave_features` are
pure reads; `save_history` writes the serialized history at the path;
`load_history` replaces the history (the error case propagates an exception,
so the state is left as it was). -/
def step (s : SysState) : Op → SysState
  | Op.addPoint p => { s with analyzer := s.analyzer.add_emotional_point p }
  | Op.detectDrift => s
  | Op.extractFeatures _ => s
  | Op.saveHistory path =>
    { s with fs := fun q => if q = path then some s.analyzer.save_history else s.fs q }
  | Op.loadHistory path =>
    match s.analyzer.load_history (s.fs path) with
    | Except.ok a2 => { s with analyzer := a2 }
    | Except.error _ => s

/-- A call sequence, run left to right. -/
def runOps (s : SysState) (ops : List Op) : SysState := ops.foldl step s

/-- The neutral result that `detect_emotional_drift` returns below 3 samples. -/
def neutralResult : WaveAnalysisResult :=
  { drift_score := 0
    dominant_frequency := 0
    amplitude_change := 0
    phase_shift := 0
    trend_direction := "stable"
    stability_index := 1
    emotional_volatility := 0
    predicted_next_state := { valence := 0, arousal := 0, dominance := 0, intensity := 0 } }

/-- C1: with fewer than 3 samples in the history, `detect_emotional_drift`
returns exactly the neutral result: `drift_score = 0`,
`dominant_frequency = 0`, `amplitude_change = 0`, `phase_shift = 0`,
`trend_direction = "stable"`, `stability_index = 1.0`,
`emotional_volatility = 0.0`, and a predicted next state mapping all four
dimensions to `0.0`. -/
theorem detect_drift_neutral_below_three (a : WaveBasedEmotionAnalyzer)
    (h : a.emotional_history.length < 3) :
    a.detect_emotional_drift = neutralResult := by
  unfold WaveBasedEmotionAnalyzer.detect_emotional_drift
  rw [if_pos h]
  rfl

/-- Witness for C1 at the empty analyzer with the default window size. -/
theorem detect_drift_neutral_below_three_witness :
    (⟨10, []⟩ : WaveBasedEmotionAnalyzer).emotional_history.length < 3 ∧
      (⟨10, []⟩ : WaveBasedEmotionAnalyzer).detect_emotional_drift = neutralResult :=
  ⟨by simp, detect_drift_neutral_below_three ⟨10, []⟩ (by simp)⟩

/-- Decoding a point's serialized dict recovers the point. -/
theorem from_dict_to_dict (p : EmotionalWavePoint) :
    EmotionalWavePoint.from_dict p.to_dict = Except.ok p := rfl

/-- Decoding a serialized history recovers the history. -/
theorem mapM_from_dict_encode (l : List EmotionalWavePoint) :
    (l.map EmotionalWavePoint.to_dict).mapM EmotionalWavePoint.from_dict = Except.ok l := by
  induction l with
  | nil => rfl
  | cons p ps ih =>
    rw [List.map_cons, List.mapM_cons, from_dict_to_dict, ih]
    rfl

/-- The `try`-block body of `load_history` inverts `save_history`. -/
theorem decodeFile_save_history (a : WaveBasedEmotionAnalyzer) :
    decodeFile a.save_history = Except.ok a.emotional_history := by
  show decodeHistory (Json.arr (a.emotional_history.map EmotionalWavePoint.to_dict)) = _
  rw [decodeHistory, mapM_from_dict_encode]

/-- C7: a `save_history` followed by a `load_history` at the same path leaves
the analyzer with the same ordered sequence of samples (same length, same
order, same field values, timestamps round-tripped through their ISO-8601
string form) and the same window size. -/
theorem save_then_load_round_trip (a : WaveBasedEmotionAnalyzer) (fs : FileSystem)
    (path : String) :
    (runOps ⟨a, fs⟩ [Op.saveHistory path, Op.loadHistory path]).analyzer.emotional_history =
        a.emotional_history ∧
      (runOps ⟨a, fs⟩ [Op.saveHistory path, Op.loadHistory path]).analyzer.window_size =
        a.window_size := by
  have hd := decodeFile_save_history a
  have hload : a.load_history (some a.save_history) =
      Except.ok { a with emotional_history := a.emotional_history } := by
    unfold WaveBasedEmotionAnalyzer.load_history
    simp [hd]
  simp [runOps, step, hload]

/-- C8: `load_history` on a missing file resets the history to empty and
raises nothing; any failure of the decoding pipeline (`json.load` plus the
`from_dict` comprehension) on a present file propagates unchanged. -/
theorem load_history_missing_and_errors :
    (∀ a : WaveBasedEmotionAnalyzer,
        a.load_history none = Except.ok { a with emotional_history := [] }) ∧
      ∀ (a : WaveBasedEmotionAnalyzer) (c : FileContent) (e : String),
        decodeFile c = Except.error e → a.load_history (some c) = Except.error e := by
  refine ⟨fun a => rfl, fun a c e h => ?_⟩
  unfold WaveBasedEmotionAnalyzer.load_history
  simp [h]

/-- Witness for C8: the empty-on-missing default, and a malformed file whose
`JSONDecodeError` propagates. -/
theorem load_history_missing_and_errors_witness :
    (⟨10, []⟩ : WaveBasedEmotionAnalyzer).load_history none =
        Except.ok (⟨10, []⟩ : WaveBasedEmotionAnalyzer) ∧
      decodeFile FileContent.malformed = Except.error "json.decoder.JSONDecodeError" ∧
      (⟨10, []⟩ : WaveBasedEmotionAnalyzer).load_history (some FileContent.malformed) =
        Except.error "json.decoder.JSONDecodeError" :=
  ⟨load_history_missing_and_errors.1 ⟨10, []⟩, rfl,
    load_history_missing_and_errors.2 ⟨10, []⟩ FileContent.malformed
      "json.decoder.JSONDecodeError" rfl⟩

/-- Appending below the cap never truncates. -/
theorem add_point_no_truncation (a : WaveBasedEmotionAnalyzer) (p : EmotionalWavePoint)
    (h : a.emotional_history.length + 1 ≤ a.window_size * 2) :
    a.add_emotional_point p = { a with emotional_history := a.emotional_history ++ [p] } := by
  unfold WaveBasedEmotionAnalyzer.add_emotional_point
  rw [if_neg]
  simp only [List.length_append, List.length_cons, List.length_nil]
  omega

/-- Adding points one at a time stays truncation-free while the total count
is within the cap. -/
theorem foldl_add_points_below_cap (w : ℕ) (hist ps : List EmotionalWavePoint)
    (h : hist.length + ps.length ≤ w * 2) :
    ps.foldl WaveBasedEmotionAnalyzer.add_emotional_point ⟨w, hist⟩ =
      (⟨w, hist ++ ps⟩ : WaveBasedEmotionAnalyzer) := by
  induction ps generalizing hist with
  | nil => simp
  | cons p ps ih =>
    rw [List.foldl_cons,
      add_point_no_truncation ⟨w, hist⟩ p (by simp only [List.length_cons] at h ⊢; omega)]
    have := ih (hist ++ [p]) (by simp only [List.length_append, List.length_cons,
      List.length_nil, List.length_cons] at h ⊢; omega)
    rw [show ({ (⟨w, hist⟩ : WaveBasedEmotionAnalyzer) with
        emotional_history := hist ++ [p] } : WaveBasedEmotionAnalyzer) =
      (⟨w, hist ++ [p]⟩ : WaveBasedEmotionAnalyzer) from rfl, this]
    simp

/-- C2 counterexample: at `window_size = 0` the truncation slice `[-0:]` is
the whole list, so after `2 × 0 + 1 = 1` addition to an initially empty
analyzer the history has length `1`, not `2 × 0 = 0`. -/
theorem add_point_cap_counterexample :
    (([⟨"2024-01-01T00:00:00", 0, 0, 0, 0⟩] :
        List EmotionalWavePoint).foldl WaveBasedEmotionAnalyzer.add_emotional_point
        ⟨0, []⟩).emotional_history.length = 1 ∧ (1 : ℕ) ≠ 0 * 2 := by
  constructor
  · rfl
  · decide

/-- C2 as amended: for every analyzer with `window_size ≥ 1`, `add_emotional_point`
is total, and after `2 × window_size + 1` consecutive additions to an
initially empty analyzer the history is exactly the last `2 × window_size`
added samples in insertion order. -/
theorem add_point_cap_retains_recent (w : ℕ) (ps : List EmotionalWavePoint)
    (hw : 1 ≤ w) (hlen : ps.length = w * 2 + 1) :
    (ps.foldl WaveBasedEmotionAnalyzer.add_emotional_point ⟨w, []⟩).emotional_history =
        ps.drop 1 ∧
      (ps.foldl WaveBasedEmotionAnalyzer.add_emotional_point ⟨w, []⟩).emotional_history.length =
        w * 2 := by
  have hne : ps ≠ [] := by
    intro hcon
    rw [hcon] at hlen
    simp at hlen
  have hdec : ps.dropLast ++ [ps.getLast hne] = ps := List.dropLast_append_getLast hne
  have hdl : ps.dropLast.length = w * 2 := by
    rw [List.length_dropLast, hlen]
    omega
  have hmain : (ps.foldl WaveBasedEmotionAnalyzer.add_emotional_point ⟨w, []⟩).emotional_history =
      ps.drop 1 := by
    conv_lhs => rw [← hdec]
    rw [List.foldl_append,
      foldl_add_points_below_cap w [] ps.dropLast (by simp [hdl]), List.foldl_cons,
      List.foldl_nil]
    unfold WaveBasedEmotionAnalyzer.add_emotional_point
    rw [if_pos (by simp only [List.nil_append, List.length_append, List.length_cons,
      List.length_nil, hdl]; omega)]
    simp only [List.nil_append]
    rw [show (ps.dropLast ++ [ps.getLast hne]) = ps from hdec]
    unfold sliceLast
    rw [if_neg (by omega), hlen]
    congr 1
    omega
  refine ⟨hmain, ?_⟩
  rw [hmain, List.length_drop, hlen]
  omega

/-- Witness for C2's amended theorem at `window_size = 1` with three points. -/
theorem add_point_cap_retains_recent_witness :
    (1 : ℕ) ≤ 1 ∧
      ([⟨"t1", 1, 0, 0, 0⟩, ⟨"t2", 2, 0, 0, 0⟩, ⟨"t3", 3, 0, 0, 0⟩] :
        List EmotionalWavePoint).length = 1 * 2 + 1 ∧
      (([⟨"t1", 1, 0, 0, 0⟩, ⟨"t2", 2, 0, 0, 0⟩, ⟨"t3", 3, 0, 0, 0⟩] :
          List EmotionalWavePoint).foldl WaveBasedEmotionAnalyzer.add_emotional_point
          ⟨1, []⟩).emotional_history =
        ([⟨"t1", 1, 0, 0, 0⟩, ⟨"t2", 2, 0, 0, 0⟩, ⟨"t3", 3, 0, 0, 0⟩] :
          List EmotionalWavePoint).drop 1 :=
  ⟨le_refl 1, by simp,
    (add_point_cap_retains_recent 1
      [⟨"t1", 1, 0, 0, 0⟩, ⟨"t2", 2, 0, 0, 0⟩, ⟨"t3", 3, 0, 0, 0⟩] (le_refl 1) (by simp)).1⟩

/-- Python slice `l[-k:]` of a list no longer than `k` is the whole list. -/
theorem sliceLast_all {α : Type} (k : ℕ) (l : List α) (h : l.length ≤ k) :
    sliceLast k l = l := by
  unfold sliceLast
  by_cases hk : k = 0
  · rw [if_pos hk]
  · rw [if_neg hk, Nat.sub_eq_zero_of_le h, List.drop_zero]

/-- The OLS slope through three equally spaced values is half the difference
of the end values. -/
theorem polyfitSlope_three (y0 y1 y2 : ℝ) :
    polyfitSlope [y0, y1, y2] = (y2 - y0) / 2 := by
  simp only [polyfitSlope]
  rw [show ([y0, y1, y2] : List ℝ).length = 3 from rfl,
    show List.range 3 = [0, 1, 2] from rfl]
  simp only [List.map_cons, List.map_nil, List.sum_cons, List.sum_nil]
  rw [show ([y0, y1, y2] : List ℝ).getD 0 0 = y0 from rfl,
    show ([y0, y1, y2] : List ℝ).getD 1 0 = y1 from rfl,
    show ([y0, y1, y2] : List ℝ).getD 2 0 = y2 from rfl]
  push_cast
  norm_num
  ring_nf

/-- A three-sample history with the given valence sequence (the other fields
held at neutral mid-range values). -/
def trendHist (v0 v1 v2 : ℝ) : WaveBasedEmotionAnalyzer :=
  ⟨10, [⟨"t1", v0, 0.5, 0, 0.5⟩, ⟨"t2", v1, 0.5, 0, 0.5⟩, ⟨"t3", v2, 0.5, 0, 0.5⟩]⟩

/-- On a three-sample history the trend classifier reads off the slope
`(v2 - v0) / 2` of the valence sequence. -/
theorem trendHist_trend (v0 v1 v2 : ℝ) :
    (trendHist v0 v1 v2).determine_trend_direction =
      if (v2 - v0) / 2 > 0.1 then "improving"
      else if (v2 - v0) / 2 < -0.1 then "declining" else "stable" := by
  unfold WaveBasedEmotionAnalyzer.determine_trend_direction trendHist
  rw [if_neg (by simp)]
  rw [show sliceLast 3 ([⟨"t1", v0, 0.5, 0, 0.5⟩, ⟨"t2", v1, 0.5, 0, 0.5⟩,
      ⟨"t3", v2, 0.5, 0, 0.5⟩] : List EmotionalWavePoint) =
    [⟨"t1", v0, 0.5, 0, 0.5⟩, ⟨"t2", v1, 0.5, 0, 0.5⟩, ⟨"t3", v2, 0.5, 0, 0.5⟩] from
    sliceLast_all 3 _ (by simp)]
  rw [show (([⟨"t1", v0, 0.5, 0, 0.5⟩, ⟨"t2", v1, 0.5, 0, 0.5⟩, ⟨"t3", v2, 0.5, 0, 0.5⟩] :
      List EmotionalWavePoint).map (fun p => p.valence)) = [v0, v1, v2] from rfl]
  simp only [polyfitSlope_three]

/-- C5: for every history of length at least 3, `trend_direction` is exactly
the classification of the OLS slope of the last 3 valence values against the
thresholds `0.1` and `-0.1`; in particular the valence sequences
`[0.1, 0.3, 0.5]`, `[0.5, 0.3, 0.1]` and `[0.2, 0.2, 0.2]` classify as
`"improving"`, `"declining"` and `"stable"`. -/
theorem trend_direction_spec :
    (∀ a : WaveBasedEmotionAnalyzer, 3 ≤ a.emotional_history.length →
      a.detect_emotional_drift.trend_direction =
        (if polyfitSlope ((sliceLast 3 a.emotional_history).map (fun p => p.valence)) > 0.1
         then "improving"
         else if polyfitSlope ((sliceLast 3 a.emotional_history).map (fun p => p.valence)) < -0.1
         then "declining" else "stable")) ∧
      (trendHist 0.1 0.3 0.5).detect_emotional_drift.trend_direction = "improving" ∧
      (trendHist 0.5 0.3 0.1).detect_emotional_drift.trend_direction = "declining" ∧
      (trendHist 0.2 0.2 0.2).detect_emotional_drift.trend_direction = "stable" := by
  have proj : ∀ a : WaveBasedEmotionAnalyzer, 3 ≤ a.emotional_history.length →
      a.detect_emotional_drift.trend_direction = a.determine_trend_direction := by
    intro a h
    unfold WaveBasedEmotionAnalyzer.detect_emotional_drift
    rw [if_neg (by omega)]
  have gen : ∀ a : WaveBasedEmotionAnalyzer, 3 ≤ a.emotional_history.length →
      a.detect_emotional_drift.trend_direction =
        (if polyfitSlope ((sliceLast 3 a.emotional_history).map (fun p => p.valence)) > 0.1
         then "improving"
         else if polyfitSlope ((sliceLast 3 a.emotional_history).map (fun p => p.valence)) < -0.1
         then "declining" else "stable") := by
    intro a h
    rw [proj a h]
    unfold WaveBasedEmotionAnalyzer.determine_trend_direction
    rw [if_neg (by omega)]
  refine ⟨gen, ?_, ?_, ?_⟩
  · rw [proj _ (by simp [trendHist]), trendHist_trend,
      if_pos (by norm_num : ((0.5 : ℝ) - 0.1) / 2 > 0.1)]
  · rw [proj _ (by simp [trendHist]), trendHist_trend,
      if_neg (by norm_num : ¬ ((0.1 : ℝ) - 0.5) / 2 > 0.1),
      if_pos (by norm_num : ((0.1 : ℝ) - 0.5) / 2 < -0.1)]
  · rw [proj _ (by simp [trendHist]), trendHist_trend,
      if_neg (by norm_num : ¬ ((0.2 : ℝ) - 0.2) / 2 > 0.1),
      if_neg (by norm_num : ¬ ((0.2 : ℝ) - 0.2) / 2 < -0.1)]

/-- Witness for C5 at the upward valence sequence. -/
theorem trend_direction_spec_witness :
    3 ≤ (trendHist 0.1 0.3 0.5).emotional_history.length ∧
      (trendHist 0.1 0.3 0.5).detect_emotional_drift.trend_direction =
        (if polyfitSlope ((sliceLast 3 (trendHist 0.1 0.3 0.5).emotional_history).map
            (fun p => p.valence)) > 0.1
         then "improving"
         else if polyfitSlope ((sliceLast 3 (trendHist 0.1 0.3 0.5).emotional_history).map
            (fun p => p.valence)) < -0.1
         then "declining" else "stable") :=
  ⟨by simp [trendHist], trend_direction_spec.1 (trendHist 0.1 0.3 0.5) (by simp [trendHist])⟩

/-- Python slice `l[-k:]` for `1 ≤ k ≤ len` has exactly `k` elements. -/
theorem sliceLast_length_of_le {α : Type} (k : ℕ) (l : List α) (hk : k ≠ 0)
    (h : k ≤ l.length) : (sliceLast k l).length = k := by
  unfold sliceLast
  rw [if_neg hk, List.length_drop]
  omega

/-- `np.clip` lands in the clamp interval. -/
theorem npClip_mem (x lo hi : ℝ) (h : lo ≤ hi) :
    lo ≤ npClip x lo hi ∧ npClip x lo hi ≤ hi :=
  ⟨le_min (le_max_right x lo) h, min_le_right _ _⟩

/-- The lower end of each dimension's clamp range (`-1` for valence and
dominance, `0` for arousal and intensity); the upper end is `1` for all four. -/
def clampLo : Dimension → ℝ
  | Dimension.valence => -1
  | Dimension.arousal => 0
  | Dimension.dominance => -1
  | Dimension.intensity => 0

/-- Each per-dimension prediction is clamped into its dimension's range. -/
theorem predictDimension_bounds (a : WaveBasedEmotionAnalyzer)
    (analyses : Dimension → WaveFeatures) (d : Dimension)
    (h : 3 ≤ a.emotional_history.length) :
    clampLo d ≤ a.predictDimension analyses d ∧ a.predictDimension analyses d ≤ 1 := by
  have hrec : ((sliceLast 3 a.emotional_history).map
      (fun p => p.getattr d)).length = 3 := by
    rw [List.length_map, sliceLast_length_of_le 3 _ (by norm_num) h]
  have hv : ∀ x : ℝ,
      clampLo d ≤ (if d = Dimension.valence ∨ d = Dimension.dominance
        then npClip x (-1) 1 else npClip x 0 1) ∧
      (if d = Dimension.valence ∨ d = Dimension.dominance
        then npClip x (-1) 1 else npClip x 0 1) ≤ 1 := by
    intro x
    by_cases hd : d = Dimension.valence ∨ d = Dimension.dominance
    · rw [if_pos hd]
      have hlo : clampLo d = -1 := by
        rcases hd with h1 | h1 <;> rw [h1] <;> rfl
      rw [hlo]
      exact npClip_mem x (-1) 1 (by norm_num)
    · rw [if_neg hd]
      have hlo : clampLo d = 0 := by
        cases d
        · exact absurd (Or.inl rfl) hd
        · rfl
        · exact absurd (Or.inr rfl) hd
        · rfl
      rw [hlo]
      exact npClip_mem x 0 1 (by norm_num)
  simp only [WaveBasedEmotionAnalyzer.predictDimension]
  rw [if_neg (by omega)]
  by_cases hf : (analyses d).frequency > 0
  · rw [if_pos hf]
    exact hv _
  · rw [if_neg hf, if_pos (by rw [hrec]; norm_num)]
    exact hv _

/-- C3: for a history of length at least 3 whose samples are within their
declared ranges, every entry of the predicted next state respects its
dimension's clamp range (valence and dominance in `[-1, 1]`, arousal and
intensity in `[0, 1]`).  The clamps enforce the bounds for any real-valued
samples, so the range hypothesis is carried from the claim but not needed. -/
theorem predicted_state_within_bounds (a : WaveBasedEmotionAnalyzer)
    (hr : ∀ p ∈ a.emotional_history, -1 ≤ p.valence ∧ p.valence ≤ 1 ∧
      0 ≤ p.arousal ∧ p.arousal ≤ 1 ∧ -1 ≤ p.dominance ∧ p.dominance ≤ 1 ∧
      0 ≤ p.intensity ∧ p.intensity ≤ 1)
    (h : 3 ≤ a.emotional_history.length) :
    ∀ d : Dimension,
      clampLo d ≤ a.detect_emotional_drift.predicted_next_state.getattr d ∧
        a.detect_emotional_drift.predicted_next_state.getattr d ≤ 1 := by
  intro d
  have hp : a.detect_emotional_drift.predicted_next_state =
      a.predict_next_state (fun d2 => a.extract_wave_features d2) := by
    unfold WaveBasedEmotionAnalyzer.detect_emotional_drift
    rw [if_neg (by omega)]
  rw [hp]
  cases d
  · exact predictDimension_bounds a _ Dimension.valence h
  · exact predictDimension_bounds a _ Dimension.arousal h
  · exact predictDimension_bounds a _ Dimension.dominance h
  · exact predictDimension_bounds a _ Dimension.intensity h

/-- Witness for C3 at a three-sample in-range history. -/
theorem predicted_state_within_bounds_witness :
    (∀ p ∈ (trendHist 0.1 0.3 0.5).emotional_history,
      -1 ≤ p.valence ∧ p.valence ≤ 1 ∧ 0 ≤ p.arousal ∧ p.arousal ≤ 1 ∧
        -1 ≤ p.dominance ∧ p.dominance ≤ 1 ∧ 0 ≤ p.intensity ∧ p.intensity ≤ 1) ∧
      3 ≤ (trendHist 0.1 0.3 0.5).emotional_history.length ∧
      ∀ d : Dimension,
        clampLo d ≤
            (trendHist 0.1 0.3 0.5).detect_emotional_drift.predicted_next_state.getattr d ∧
          (trendHist 0.1 0.3 0.5).detect_emotional_drift.predicted_next_state.getattr d ≤ 1 :=
  ⟨by
    intro p hp
    simp only [trendHist, List.mem_cons, List.not_mem_nil, or_false] at hp
    rcases hp with h1 | h1 | h1 <;> subst h1 <;> norm_num,
    by simp [trendHist],
    predicted_state_within_bounds (trendHist 0.1 0.3 0.5)
      (by
        intro p hp
        simp only [trendHist, List.mem_cons, List.not_mem_nil, or_false] at hp
        rcases hp with h1 | h1 | h1 <;> subst h1 <;> norm_num)
      (by simp [trendHist])⟩

/-- Extracted amplitudes are nonnegative (standard deviation or the 0 floor). -/
theorem extract_amplitude_nonneg (a : WaveBasedEmotionAnalyzer) (d : Dimension) :
    0 ≤ (a.extract_wave_features d).amplitude := by
  simp only [WaveBasedEmotionAnalyzer.extract_wave_features]
  split
  · norm_num
  · split
    · norm_num
    · exact Real.sqrt_nonneg _

/-- Extracted frequencies are nonnegative (an absolute value or the 0 floor). -/
theorem extract_frequency_nonneg (a : WaveBasedEmotionAnalyzer) (d : Dimension) :
    0 ≤ (a.extract_wave_features d).frequency := by
  simp only [WaveBasedEmotionAnalyzer.extract_wave_features]
  split
  · norm_num
  · split
    · norm_num
    · dsimp only
      split
      · split
        · exact abs_nonneg _
        · exact le_refl 0
      · exact le_refl 0

/-- The mean of a list of nonnegative reals is nonnegative. -/
theorem npMean_nonneg (l : List ℝ) (h : ∀ x ∈ l, 0 ≤ x) : 0 ≤ npMean l :=
  div_nonneg (List.sum_nonneg h) (Nat.cast_nonneg _)

/-- C6: for a history of length at least 3, the drift score is exactly
`0.4·min(meanFrequency·10, 1) + 0.4·min(meanAmplitude·2, 1) +
0.2·min(meanAbsPhase/π, 1)` with the means across the four dimensions'
extracted features, and it always lies in `[0, 1]`. -/
theorem drift_score_formula_and_bounds (a : WaveBasedEmotionAnalyzer)
    (h : 3 ≤ a.emotional_history.length) :
    a.detect_emotional_drift.drift_score =
        0.4 * min (npMean (dimensions.map
            (fun d => (a.extract_wave_features d).frequency)) * 10) 1 +
          0.4 * min (npMean (dimensions.map
            (fun d => (a.extract_wave_features d).amplitude)) * 2) 1 +
          0.2 * min (npMean (dimensions.map
            (fun d => |(a.extract_wave_features d).phase|)) / Real.pi) 1 ∧
      0 ≤ a.detect_emotional_drift.drift_score ∧
      a.detect_emotional_drift.drift_score ≤ 1 := by
  have hfe : a.detect_emotional_drift.drift_score =
      WaveBasedEmotionAnalyzer.calculate_drift_score (fun d => a.extract_wave_features d) := by
    unfold WaveBasedEmotionAnalyzer.detect_emotional_drift
    rw [if_neg (by omega)]
  have hF : 0 ≤ npMean (dimensions.map (fun d => (a.extract_wave_features d).frequency)) := by
    refine npMean_nonneg _ ?_
    intro x hx
    rw [List.mem_map] at hx
    obtain ⟨d, _, rfl⟩ := hx
    exact extract_frequency_nonneg a d
  have hA : 0 ≤ npMean (dimensions.map (fun d => (a.extract_wave_features d).amplitude)) := by
    refine npMean_nonneg _ ?_
    intro x hx
    rw [List.mem_map] at hx
    obtain ⟨d, _, rfl⟩ := hx
    exact extract_amplitude_nonneg a d
  have hP : 0 ≤ npMean (dimensions.map (fun d => |(a.extract_wave_features d).phase|)) := by
    refine npMean_nonneg _ ?_
    intro x hx
    rw [List.mem_map] at hx
    obtain ⟨d, _, rfl⟩ := hx
    exact abs_nonneg _
  have hform : WaveBasedEmotionAnalyzer.calculate_drift_score
      (fun d => a.extract_wave_features d) =
      0.4 * min (npMean (dimensions.map
          (fun d => (a.extract_wave_features d).frequency)) * 10) 1 +
        0.4 * min (npMean (dimensions.map
          (fun d => (a.extract_wave_features d).amplitude)) * 2) 1 +
        0.2 * min (npMean (dimensions.map
          (fun d => |(a.extract_wave_features d).phase|)) / Real.pi) 1 := rfl
  have s1lo : (0 : ℝ) ≤ min (npMean (dimensions.map
      (fun d => (a.extract_wave_features d).frequency)) * 10) 1 :=
    le_min (mul_nonneg hF (by norm_num)) zero_le_one
  have s2lo : (0 : ℝ) ≤ min (npMean (dimensions.map
      (fun d => (a.extract_wave_features d).amplitude)) * 2) 1 :=
    le_min (mul_nonneg hA (by norm_num)) zero_le_one
  have s3lo : (0 : ℝ) ≤ min (npMean (dimensions.map
      (fun d => |(a.extract_wave_features d).phase|)) / Real.pi) 1 :=
    le_min (div_nonneg hP (le_of_lt Real.pi_pos)) zero_le_one
  have s1hi := min_le_right (npMean (dimensions.map
      (fun d => (a.extract_wave_features d).frequency)) * 10) (1 : ℝ)
  have s2hi := min_le_right (npMean (dimensions.map
      (fun d => (a.extract_wave_features d).amplitude)) * 2) (1 : ℝ)
  have s3hi := min_le_right (npMean (dimensions.map
      (fun d => |(a.extract_wave_features d).phase|)) / Real.pi) (1 : ℝ)
  refine ⟨by rw [hfe, hform], ?_, ?_⟩
  · rw [hfe, hform]
    linarith
  · rw [hfe, hform]
    linarith

/-- Witness for C6 at a three-sample history. -/
theorem drift_score_formula_and_bounds_witness :
    3 ≤ (trendHist 0.1 0.3 0.5).emotional_history.length ∧
      0 ≤ (trendHist 0.1 0.3 0.5).detect_emotional_drift.drift_score ∧
      (trendHist 0.1 0.3 0.5).detect_emotional_drift.drift_score ≤ 1 :=
  ⟨by simp [trendHist],
    (drift_score_formula_and_bounds (trendHist 0.1 0.3 0.5) (by simp [trendHist])).2⟩

/-- Detrending preserves length. -/
theorem detrend_length (l : List ℝ) : (detrend l).length = l.length := by
  simp [detrend]

/-- The DFT preserves length. -/
theorem fftC_length (l : List ℝ) : (fftC l).length = l.length := by
  simp [fftC]

/-- Length of a Python slice `l[i:j]`. -/
theorem pySlice_length {α : Type} (i j : ℕ) (l : List α) :
    (pySlice i j l).length = min j l.length - i := by
  simp [pySlice]

/-- A Python slice `l[-k:]` never exceeds the list. -/
theorem sliceLast_length_le {α : Type} (k : ℕ) (l : List α) :
    (sliceLast k l).length ≤ l.length := by
  unfold sliceLast
  split
  · exact le_refl _
  · rw [List.length_drop]
    omega

/-- When the feature window has exactly 3 values, the positive-frequency FFT
slice `fft_vals[1 : 3 // 2]` is empty, so the extracted frequency is 0. -/
theorem extract_frequency_zero_of_window_three (a : WaveBasedEmotionAnalyzer) (d : Dimension)
    (hw : (sliceLast a.window_size a.emotional_history).length = 3) :
    (a.extract_wave_features d).frequency = 0 := by
  have hh : 3 ≤ a.emotional_history.length := by
    have := sliceLast_length_le a.window_size a.emotional_history
    omega
  have hv : (a.windowValues d).length = 3 := by
    rw [WaveBasedEmotionAnalyzer.windowValues, List.length_map, hw]
  simp only [WaveBasedEmotionAnalyzer.extract_wave_features]
  rw [if_neg (by omega), if_neg (by rw [hv]; norm_num)]
  dsimp only
  split
  · split
    · next hpos =>
      exfalso
      rw [pySlice_length, fftC_length, detrend_length, hv] at hpos
      norm_num at hpos
    · rfl
  · rfl

/-- The dimension-membership clamp of the source collapses to the
per-dimension clamp range. -/
theorem clip_branches (d : Dimension) (x : ℝ) :
    (if d = Dimension.valence ∨ d = Dimension.dominance
      then npClip x (-1) 1 else npClip x 0 1) = npClip x (clampLo d) 1 := by
  cases d <;> simp [clampLo]

/-- C10: when the feature window holds exactly 3 values, every dimension's
extracted frequency is 0; hence `dominant_frequency = 0` and every predicted
value is the clamped last-delta extrapolation
`lastValue + (lastValue - secondToLastValue)` — never the sine-wave branch. -/
theorem window_three_zero_frequency_fallback (a : WaveBasedEmotionAnalyzer)
    (hw : (sliceLast a.window_size a.emotional_history).length = 3) :
    (∀ d : Dimension, (a.extract_wave_features d).frequency = 0) ∧
      a.detect_emotional_drift.dominant_frequency = 0 ∧
      ∀ d : Dimension,
        a.detect_emotional_drift.predicted_next_state.getattr d =
          npClip
            (((sliceLast 3 a.emotional_history).map (fun p => p.getattr d)).getD 2 0 +
              (((sliceLast 3 a.emotional_history).map (fun p => p.getattr d)).getD 2 0 -
                ((sliceLast 3 a.emotional_history).map (fun p => p.getattr d)).getD 1 0))
            (clampLo d) 1 := by
  have hh : 3 ≤ a.emotional_history.length := by
    have := sliceLast_length_le a.window_size a.emotional_history
    omega
  have hfreq : ∀ d : Dimension, (a.extract_wave_features d).frequency = 0 :=
    fun d => extract_frequency_zero_of_window_three a d hw
  have hrec : ∀ d : Dimension,
      ((sliceLast 3 a.emotional_history).map (fun p => p.getattr d)).length = 3 := by
    intro d
    rw [List.length_map, sliceLast_length_of_le 3 _ (by norm_num) hh]
  have hdom : a.detect_emotional_drift.dominant_frequency = 0 := by
    unfold WaveBasedEmotionAnalyzer.detect_emotional_drift
    rw [if_neg (by omega)]
    show npMean (dimensions.map (fun d => (a.extract_wave_features d).frequency)) = 0
    unfold dimensions
    rw [List.map_cons, List.map_cons, List.map_cons, List.map_cons, List.map_nil,
      hfreq Dimension.valence, hfreq Dimension.arousal, hfreq Dimension.dominance,
      hfreq Dimension.intensity]
    norm_num [npMean]
  have hpredict : ∀ d : Dimension,
      a.predictDimension (fun d2 => a.extract_wave_features d2) d =
        npClip
          (((sliceLast 3 a.emotional_history).map (fun p => p.getattr d)).getD 2 0 +
            (((sliceLast 3 a.emotional_history).map (fun p => p.getattr d)).getD 2 0 -
              ((sliceLast 3 a.emotional_history).map (fun p => p.getattr d)).getD 1 0))
          (clampLo d) 1 := by
    intro d
    simp only [WaveBasedEmotionAnalyzer.predictDimension]
    rw [if_neg (by omega), if_neg (by rw [hfreq d]; exact lt_irrefl 0),
      if_pos (by rw [hrec d]; norm_num), hrec d, clip_branches]
  refine ⟨hfreq, hdom, ?_⟩
  intro d
  have hp : a.detect_emotional_drift.predicted_next_state =
      a.predict_next_state (fun d2 => a.extract_wave_features d2) := by
    unfold WaveBasedEmotionAnalyzer.detect_emotional_drift
    rw [if_neg (by omega)]
  rw [hp]
  cases d
  · exact hpredict Dimension.valence
  · exact hpredict Dimension.arousal
  · exact hpredict Dimension.dominance
  · exact hpredict Dimension.intensity

/-- Witness for C10 at a three-sample history with the default window size. -/
theorem window_three_zero_frequency_fallback_witness :
    (sliceLast (trendHist 0.1 0.3 0.5).window_size
        (trendHist 0.1 0.3 0.5).emotional_history).length = 3 ∧
      (∀ d : Dimension, ((trendHist 0.1 0.3 0.5).extract_wave_features d).frequency = 0) ∧
      (trendHist 0.1 0.3 0.5).detect_emotional_drift.dominant_frequency = 0 :=
  ⟨rfl,
    (window_three_zero_frequency_fallback (trendHist 0.1 0.3 0.5) rfl).1,
    (window_three_zero_frequency_fallback (trendHist 0.1 0.3 0.5) rfl).2.1⟩

/-- Reading inside the populated range of a constant list. -/
theorem getD_replicate (c : ℝ) (n i : ℕ) (h : i < n) :
    (List.replicate n c).getD i 0 = c := by
  rw [List.getD_eq_getElem?_getD, List.getElem?_replicate_of_lt h]
  rfl

/-- Reading anywhere in an all-zero list gives 0 (the default is 0 too). -/
theorem getD_replicate_zero (n i : ℕ) : (List.replicate n (0 : ℝ)).getD i 0 = 0 := by
  rw [List.getD_eq_getElem?_getD, List.getElem?_replicate]
  split <;> rfl

/-- The mean of a constant list is the constant. -/
theorem npMean_replicate (n : ℕ) (c : ℝ) (h : n ≠ 0) :
    npMean (List.replicate n c) = c := by
  rw [npMean, List.sum_replicate, List.length_replicate, nsmul_eq_mul, mul_comm,
    mul_div_assoc, div_self (Nat.cast_ne_zero.mpr h), mul_one]

/-- The standard deviation of a constant list is 0. -/
theorem npStd_replicate (n : ℕ) (c : ℝ) (h : n ≠ 0) :
    npStd (List.replicate n c) = 0 := by
  rw [npStd, npMean_replicate n c h, List.map_replicate,
    show (c - c) ^ 2 = (0 : ℝ) from by ring, npMean, List.sum_replicate, smul_zero,
    zero_div, Real.sqrt_zero]

/-- The OLS slope of a constant list is 0. -/
theorem polyfitSlope_replicate (n : ℕ) (c : ℝ) :
    polyfitSlope (List.replicate n c) = 0 := by
  simp only [polyfitSlope, List.length_replicate]
  have hxy : ((List.range n).map
        (fun (i : ℕ) => (i : ℝ) * (List.replicate n c).getD i 0)).sum =
      ((List.range n).map (fun (i : ℕ) => (i : ℝ))).sum * c := by
    rw [List.map_congr_left (g := fun (i : ℕ) => (i : ℝ) * c) (fun i hi => by
      rw [getD_replicate c n i (List.mem_range.mp hi)])]
    exact List.sum_map_mul_right (List.range n) (fun (i : ℕ) => (i : ℝ)) c
  rw [hxy, List.sum_replicate, nsmul_eq_mul]
  have hnum : (n : ℝ) * (((List.range n).map (fun (i : ℕ) => (i : ℝ))).sum * c) -
      ((List.range n).map (fun (i : ℕ) => (i : ℝ))).sum * ((n : ℝ) * c) = 0 := by ring
  rw [hnum, zero_div]

/-- Detrending a constant list yields the all-zero list. -/
theorem detrend_replicate (n : ℕ) (c : ℝ) (h : n ≠ 0) :
    detrend (List.replicate n c) = List.replicate n 0 := by
  simp only [detrend, polyfitSlope_replicate, List.length_replicate,
    npMean_replicate n c h, zero_mul, sub_zero]
  rw [List.map_congr_left (g := fun (_ : ℕ) => (0 : ℝ)) (fun i hi => by
    rw [getD_replicate c n i (List.mem_range.mp hi)]
    ring)]
  rw [List.map_const', List.length_range]

/-- A sum of zeros is zero. -/
theorem sum_map_zero_complex {α : Type} (l : List α) :
    (l.map (fun _ => (0 : ℂ))).sum = 0 := by
  rw [List.map_const', List.sum_replicate, smul_zero]

/-- The DFT of the all-zero list is all-zero. -/
theorem fftC_replicate_zero (n : ℕ) :
    fftC (List.replicate n (0 : ℝ)) = List.replicate n (0 : ℂ) := by
  simp only [fftC, List.length_replicate]
  rw [List.map_congr_left (g := fun (_ : ℕ) => (0 : ℂ)) (fun k _ => by
    rw [List.map_congr_left (g := fun (_ : ℕ) => (0 : ℂ)) (fun j _ => by
      rw [getD_replicate_zero]
      simp)]
    exact sum_map_zero_complex _)]
  rw [List.map_const', List.length_range]

/-- The scanning fold of `np.argmax` never moves off index 0 on an all-zero
tail. -/
theorem argmax_foldl_zero (k : ℕ) : ∀ i b : ℕ,
    (List.replicate k (0 : ℝ)).foldl
      (fun s v => if s.2.2 < v then (s.1 + 1, s.1, v) else (s.1 + 1, s.2.1, s.2.2))
      (i, b, (0 : ℝ)) = (i + k, b, 0) := by
  induction k with
  | zero => intro i b; rfl
  | succ m ih =>
    intro i b
    rw [List.replicate_succ, List.foldl_cons]
    dsimp only
    rw [if_neg (lt_irrefl (0 : ℝ)), ih (i + 1) b]
    rw [show i + 1 + m = i + (m + 1) from by omega]

/-- `np.argmax` of a nonempty all-zero array is 0. -/
theorem argmax_replicate_zero (m : ℕ) :
    argmax (List.replicate (m + 1) (0 : ℝ)) = 0 := by
  rw [List.replicate_succ]
  show (List.foldl _ ((1 : ℕ), (0 : ℕ), (0 : ℝ)) (List.replicate m 0)).2.1 = 0
  rw [argmax_foldl_zero m 1 0]

/-- `np.fft.fftfreq(n)[1] = 1/n` for `n ≥ 3`. -/
theorem fftfreq_getD_one (n : ℕ) (h3 : 3 ≤ n) : (fftfreq n).getD 1 0 = 1 / (n : ℝ) := by
  rw [fftfreq, List.getD_eq_getElem?_getD, List.getElem?_map,
    List.getElem?_range (by omega : 1 < n)]
  simp only [Option.map_some', Option.getD_some]
  rw [if_pos (by omega : 1 ≤ (n - 1) / 2)]
  norm_num

/-- A constant feature window of length `n ≥ 3` gives amplitude 0; its
detrended signal is identically zero, so the all-zero spectrum makes
`np.argmax` pick the first positive bin: frequency is 0 only for `n = 3`
(empty positive slice) and `1/n` for `n ≥ 4`. -/
theorem extract_const_window (a : WaveBasedEmotionAnalyzer) (d : Dimension) (c : ℝ)
    (hconst : ∀ x ∈ a.windowValues d, x = c)
    (h3 : 3 ≤ (a.windowValues d).length) :
    (a.extract_wave_features d).amplitude = 0 ∧
      (a.extract_wave_features d).frequency =
        (if (a.windowValues d).length = 3 then 0
         else 1 / ((a.windowValues d).length : ℝ)) := by
  obtain ⟨n, hn⟩ : ∃ n, (a.windowValues d).length = n := ⟨_, rfl⟩
  have hh : 3 ≤ a.emotional_history.length := by
    have h1 : (a.windowValues d).length ≤ a.emotional_history.length := by
      rw [WaveBasedEmotionAnalyzer.windowValues, List.length_map]
      exact sliceLast_length_le _ _
    omega
  have hn3 : 3 ≤ n := by omega
  have hn0 : n ≠ 0 := by omega
  have hrep : a.windowValues d = List.replicate n c :=
    List.eq_replicate_iff.mpr ⟨hn, hconst⟩
  simp only [WaveBasedEmotionAnalyzer.extract_wave_features]
  rw [if_neg (by omega), hrep]
  simp only [List.length_replicate]
  rw [if_neg (by omega : ¬ n < 3), detrend_replicate n c hn0]
  simp only [List.length_replicate]
  constructor
  · show npStd (List.replicate n c) = 0
    exact npStd_replicate n c hn0
  · show (if n > 2 then _ else (0 : ℝ)) = _
    rw [if_pos (by omega : n > 2)]
    rw [fftC_replicate_zero]
    simp only [pySlice, List.length_replicate, List.take_replicate, List.drop_replicate]
    rw [Nat.min_eq_left (Nat.div_le_self n 2)]
    by_cases hcase : n = 3
    · rw [if_pos hcase]
      subst hcase
      rw [if_neg (by norm_num)]
    · rw [if_neg hcase]
      have hge4 : 4 ≤ n := by omega
      rw [if_pos (by omega : n / 2 - 1 > 0)]
      rw [List.map_replicate, show Complex.abs 0 = 0 from Complex.abs.map_zero]
      obtain ⟨m, hm⟩ : ∃ m, n / 2 - 1 = m + 1 := ⟨n / 2 - 2, by omega⟩
      rw [hm, argmax_replicate_zero m, zero_add, fftfreq_getD_one n hn3]
      rw [abs_of_nonneg (by positivity)]

/-- C4 as amended: a constant-valued dimension window of at least 3 samples
always gives `amplitude = 0`; `frequency = 0` holds exactly when the window
has 3 samples (empty positive-frequency slice), while any longer constant
window gives `frequency = 1/n ≠ 0` (`np.argmax` of the all-zero spectrum
picks the first positive bin). -/
theorem extract_const_amplitude_frequency (a : WaveBasedEmotionAnalyzer) (d : Dimension)
    (c : ℝ) (hconst : ∀ x ∈ a.windowValues d, x = c)
    (h3 : 3 ≤ (a.windowValues d).length) :
    (a.extract_wave_features d).amplitude = 0 ∧
      ((a.windowValues d).length = 3 → (a.extract_wave_features d).frequency = 0) ∧
      ((a.windowValues d).length ≠ 3 →
        (a.extract_wave_features d).frequency = 1 / ((a.windowValues d).length : ℝ) ∧
          (a.extract_wave_features d).frequency ≠ 0) := by
  obtain ⟨h1, h2⟩ := extract_const_window a d c hconst h3
  refine ⟨h1, fun h => by rw [h2, if_pos h], fun h => ?_⟩
  have hne : ((a.windowValues d).length : ℝ) ≠ 0 := Nat.cast_ne_zero.mpr (by omega)
  rw [h2, if_neg h]
  exact ⟨rfl, one_div_ne_zero hne⟩

/-- A four-sample constant history (all fields 0.5, default window size). -/
def constHist4 : WaveBasedEmotionAnalyzer :=
  ⟨10, List.replicate 4 ⟨"t", 0.5, 0.5, 0.5, 0.5⟩⟩

/-- C4 counterexample: a constant valence series of 4 samples has
`frequency = 1/4 ≠ 0`, contradicting the claim that every constant window of
at least 3 samples yields `frequency = 0`. -/
theorem extract_const_frequency_counterexample :
    (∀ x ∈ constHist4.windowValues Dimension.valence, x = 0.5) ∧
      3 ≤ (constHist4.windowValues Dimension.valence).length ∧
      (constHist4.extract_wave_features Dimension.valence).frequency = 1 / 4 ∧
      (constHist4.extract_wave_features Dimension.valence).frequency ≠ 0 := by
  have hwv : constHist4.windowValues Dimension.valence = List.replicate 4 (0.5 : ℝ) := rfl
  have hconst : ∀ x ∈ constHist4.windowValues Dimension.valence, x = 0.5 := by
    intro x hx
    rw [hwv] at hx
    exact List.eq_of_mem_replicate hx
  have h3 : 3 ≤ (constHist4.windowValues Dimension.valence).length := by
    rw [hwv]
    simp
  have hlen : (constHist4.windowValues Dimension.valence).length = 4 := by
    rw [hwv]
    simp
  have h := extract_const_window constHist4 Dimension.valence 0.5 hconst h3
  refine ⟨hconst, h3, ?_, ?_⟩
  · rw [h.2, if_neg (by rw [hlen]; norm_num), hlen]
    norm_num
  · rw [h.2, if_neg (by rw [hlen]; norm_num), hlen]
    norm_num

/-- Witness for C4's amended theorem at a constant three-sample window. -/
theorem extract_const_amplitude_frequency_witness :
    (∀ x ∈ (trendHist 0.2 0.2 0.2).windowValues Dimension.valence, x = 0.2) ∧
      3 ≤ ((trendHist 0.2 0.2 0.2).windowValues Dimension.valence).length ∧
      ((trendHist 0.2 0.2 0.2).extract_wave_features Dimension.valence).amplitude = 0 ∧
      ((trendHist 0.2 0.2 0.2).extract_wave_features Dimension.valence).frequency = 0 := by
  have hwv : (trendHist 0.2 0.2 0.2).windowValues Dimension.valence =
      [(0.2 : ℝ), 0.2, 0.2] := rfl
  have hconst : ∀ x ∈ (trendHist 0.2 0.2 0.2).windowValues Dimension.valence, x = 0.2 := by
    intro x hx
    rw [hwv] at hx
    simp only [List.mem_cons, List.not_mem_nil, or_false] at hx
    rcases hx with h | h | h <;> exact h
  have h3 : 3 ≤ ((trendHist 0.2 0.2 0.2).windowValues Dimension.valence).length := by
    rw [hwv]
    simp
  have h := extract_const_amplitude_frequency (trendHist 0.2 0.2 0.2) Dimension.valence
    0.2 hconst h3
  exact ⟨hconst, h3, h.1, h.2.1 (by rw [hwv]; rfl)⟩

/-- The cap on the analyzer's history, strengthened with the guarantee that
every persisted file decodes to a capped history (true of every file the
analyzer itself writes). -/
def CapInv (w : ℕ) (s : SysState) : Prop :=
  s.analyzer.window_size = w ∧ s.analyzer.emotional_history.length ≤ w * 2 ∧
    ∀ (path : String) (c : FileContent), s.fs path = some c →
      ∀ l, decodeFile c = Except.ok l → l.length ≤ w * 2

/-- One `add_emotional_point` keeps a capped history capped (for a positive
window size, where the truncation slice is effective). -/
theorem add_point_length_le (a : WaveBasedEmotionAnalyzer) (p : EmotionalWavePoint)
    (hw : 1 ≤ a.window_size) (h : a.emotional_history.length ≤ a.window_size * 2) :
    (a.add_emotional_point p).emotional_history.length ≤ a.window_size * 2 := by
  simp only [WaveBasedEmotionAnalyzer.add_emotional_point]
  split
  · next hgt =>
    show (sliceLast (a.window_size * 2) (a.emotional_history ++ [p])).length ≤ _
    unfold sliceLast
    rw [if_neg (by omega), List.length_drop]
    omega
  · next hle =>
    show (a.emotional_history ++ [p]).length ≤ _
    simp only [List.length_append, List.length_cons, List.length_nil] at hle ⊢
    omega

/-- The `loadHistory` step, written out by cases on the load result. -/
theorem step_load_eq (s : SysState) (path : String) :
    step s (Op.loadHistory path) =
      match s.analyzer.load_history (s.fs path) with
      | Except.ok a2 => { s with analyzer := a2 }
      | Except.error _ => s := rfl

/-- Every operation preserves the strengthened cap invariant. -/
theorem step_preserves_CapInv (w : ℕ) (hw : 1 ≤ w) (s : SysState) (op : Op)
    (h : CapInv w s) : CapInv w (step s op) := by
  obtain ⟨hws, hlen, hfs⟩ := h
  cases op with
  | addPoint p =>
    refine ⟨?_, ?_, hfs⟩
    · show (s.analyzer.add_emotional_point p).window_size = w
      simp only [WaveBasedEmotionAnalyzer.add_emotional_point]
      split <;> exact hws
    · show (s.analyzer.add_emotional_point p).emotional_history.length ≤ w * 2
      have := add_point_length_le s.analyzer p (by omega) (by rw [hws]; exact hlen)
      rw [hws] at this
      exact this
  | detectDrift => exact ⟨hws, hlen, hfs⟩
  | extractFeatures d => exact ⟨hws, hlen, hfs⟩
  | saveHistory path =>
    refine ⟨hws, hlen, ?_⟩
    intro q c hq l hdec
    by_cases hqp : q = path
    · rw [show (step s (Op.saveHistory path)).fs q =
          (if q = path then some s.analyzer.save_history else s.fs q) from rfl,
        if_pos hqp] at hq
      injection hq with hq
      rw [← hq, decodeFile_save_history] at hdec
      injection hdec with hdec
      rw [← hdec]
      exact hlen
    · rw [show (step s (Op.saveHistory path)).fs q =
          (if q = path then some s.analyzer.save_history else s.fs q) from rfl,
        if_neg hqp] at hq
      exact hfs q c hq l hdec
  | loadHistory path =>
    rw [step_load_eq]
    cases hfile : s.fs path with
    | none =>
      rw [show s.analyzer.load_history none =
        Except.ok { s.analyzer with emotional_history := [] } from rfl]
      exact ⟨hws, by simp, hfs⟩
    | some c =>
      cases hdec : decodeFile c with
      | ok pts =>
        rw [show s.analyzer.load_history (some c) =
            Except.ok { s.analyzer with emotional_history := pts } from by
          simp only [WaveBasedEmotionAnalyzer.load_history, hdec]]
        exact ⟨hws, hfs path c hfile pts hdec, hfs⟩
      | error e =>
        rw [show s.analyzer.load_history (some c) = Except.error e from by
          simp only [WaveBasedEmotionAnalyzer.load_history, hdec]]
        exact ⟨hws, hlen, hfs⟩

/-- Any operation sequence preserves the strengthened cap invariant. -/
theorem runOps_preserves_CapInv (w : ℕ) (hw : 1 ≤ w) (ops : List Op) (s : SysState)
    (h : CapInv w s) : CapInv w (runOps s ops) := by
  induction ops generalizing s with
  | nil => exact h
  | cons op ops ih => exact ih (step s op) (step_preserves_CapInv w hw s op h)

/-- C9 as amended: starting from a freshly constructed analyzer with
`window_size ≥ 1` and a file system holding no pre-existing files, any
sequence of `addPoint`, `detectDrift`, `extractFeatures`, `saveHistory` and
`loadHistory` calls leaves `len(history) ≤ 2 × window_size`. -/
theorem history_cap_invariant (w : ℕ) (hw : 1 ≤ w) (ops : List Op) :
    (runOps ⟨⟨w, []⟩, fun _ => none⟩ ops).analyzer.emotional_history.length ≤ w * 2 :=
  (runOps_preserves_CapInv w hw ops ⟨⟨w, []⟩, fun _ => none⟩
    ⟨rfl, by simp, fun path c hc => Option.noConfusion hc⟩).2.1

/-- Witness for C9's amended theorem: one addition at `window_size = 1`. -/
theorem history_cap_invariant_witness :
    (1 : ℕ) ≤ 1 ∧
      (runOps ⟨⟨1, []⟩, fun _ => none⟩
          [Op.addPoint ⟨"t1", 0, 0, 0, 0⟩]).analyzer.emotional_history.length ≤ 1 * 2 :=
  ⟨le_refl 1, history_cap_invariant 1 (le_refl 1) [Op.addPoint ⟨"t1", 0, 0, 0, 0⟩]⟩

/-- Three in-range samples saved by a wide analyzer into a file that a
narrow analyzer will load. -/
def threePoints : List EmotionalWavePoint :=
  [⟨"t1", 0.1, 0.2, 0.3, 0.4⟩, ⟨"t2", 0.1, 0.2, 0.3, 0.4⟩, ⟨"t3", 0.1, 0.2, 0.3, 0.4⟩]

/-- A fresh `window_size = 1` analyzer over a file system with one
pre-existing three-sample history file. -/
def cexInitState : SysState :=
  ⟨⟨1, []⟩, fun path => if path = "history.json"
    then some (WaveBasedEmotionAnalyzer.save_history ⟨5, threePoints⟩) else none⟩

/-- C9 counterexample: a single `loadHistory` of a pre-existing three-sample
file leaves a fresh `window_size = 1` analyzer with 3 > 2 × 1 samples — the
cap is not an invariant of `loadHistory`, which never truncates. -/
theorem history_cap_counterexample :
    (runOps cexInitState
        [Op.loadHistory "history.json"]).analyzer.emotional_history.length = 3 ∧
      (runOps cexInitState [Op.loadHistory "history.json"]).analyzer.window_size * 2 = 2 ∧
      ¬ ((3 : ℕ) ≤ 2) := by
  have hd : decodeFile (WaveBasedEmotionAnalyzer.save_history ⟨5, threePoints⟩) =
      Except.ok threePoints := decodeFile_save_history ⟨5, threePoints⟩
  have hfs : cexInitState.fs "history.json" =
      some (WaveBasedEmotionAnalyzer.save_history ⟨5, threePoints⟩) := by
    simp [cexInitState]
  have hload : (cexInitState.analyzer).load_history (cexInitState.fs "history.json") =
      Except.ok ⟨1, threePoints⟩ := by
    rw [hfs]
    simp only [WaveBasedEmotionAnalyzer.load_history, hd]
    rfl
  have hrun : runOps cexInitState [Op.loadHistory "history.json"] =
      { cexInitState with analyzer := ⟨1, threePoints⟩ } := by
    show step cexInitState (Op.loadHistory "history.json") = _
    rw [step_load_eq, hload]
  rw [hrun]
  exact ⟨rfl, rfl, by omega⟩

end
